import Mathlib

/-!
Shallow embedding of src/keystolyrics.py, the chart-to-lyric-events
converter. Text streams are modelled as lists of lines: an element of the
list is exactly the string that Python readline would return for that line
(normally ending in a newline; the final line of a file may lack one; the
empty string never occurs as an element, since readline yields it only at
end of file). Raised exceptions are modelled by the Except monad with a
structured error type whose constructors record the message data of the
corresponding Python Exception. On failure no output string is produced,
matching the caller contract in which partial output is discarded.

Regexes are modelled by hand-rolled character-level matchers over the
ASCII fragment relevant to the chart format; each matcher carries a
comment naming the regex of the source it embeds.
-/

set_option maxRecDepth 100000

/-- Model of the Python regex class backslash-s over the ASCII range:
space, tab, newline, vertical tab, form feed, carriage return. -/
def isSpaceChar (c : Char) : Bool :=
  c == ' ' || c == '\t' || c == '\n' || c == '\x0b' || c == '\x0c' || c == '\r'

/-- Model of the Python regex class backslash-d over the ASCII range. -/
def isDigitChar (c : Char) : Bool :=
  '0' ≤ c && c ≤ '9'

/-- Model of the regex class [a-zA-Z\d_] used by any_note_line. -/
def isWordChar (c : Char) : Bool :=
  ('a' ≤ c && c ≤ 'z') || ('A' ≤ c && c ≤ 'Z') || isDigitChar c || c == '_'

/-- Drop leading whitespace, used to consume a greedy leading ws-star. -/
def dropWs (cs : List Char) : List Char :=
  cs.dropWhile isSpaceChar

/-- Model of Python str.strip with no argument (strip whitespace from
both ends). -/
def stripChars (cs : List Char) : List Char :=
  ((cs.dropWhile isSpaceChar).reverse.dropWhile isSpaceChar).reverse

/-- String-level strip, as in line.strip() of the source. -/
def stripStr (s : String) : String :=
  String.mk (stripChars s.data)

/-- Value of a decimal digit string, the model of Python int() applied to
a string matched by a digit-plus group. -/
def digitsToNat (ds : List Char) : Nat :=
  ds.foldl (fun n c => n * 10 + (c.toNat - '0'.toNat)) 0

/-- Model of re.split(r"\s+", s): tokens between maximal whitespace runs,
with an empty leading or trailing token when the string starts or ends
with whitespace, and a single empty token for the empty string. -/
def splitWsList : List Char → List (List Char)
  | [] => [[]]
  | c :: cs =>
    if isSpaceChar c then
      match cs with
      | [] => [] :: splitWsList cs
      | c2 :: _ => if isSpaceChar c2 then splitWsList cs else [] :: splitWsList cs
    else
      match splitWsList cs with
      | [] => [[c]]
      | t :: ts => (c :: t) :: ts

/-- Model of re.split on a single-character separator (used with the
hyphen for syllable boundaries): split at every occurrence, keeping empty
pieces. -/
def splitCharList (sep : Char) : List Char → List (List Char)
  | [] => [[]]
  | c :: cs =>
    if c == sep then [] :: splitCharList sep cs
    else
      match splitCharList sep cs with
      | [] => [[c]]
      | t :: ts => (c :: t) :: ts

/-- Model of the loop of LyricFile.start_line that appends a dash to
every syllable of a word except the last one. -/
def addDashes : List String → List String
  | [] => []
  | [s] => [s]
  | s :: rest => (s ++ "-") :: addDashes rest

/-- Flattened syllable list produced from one non-blank lyric line:
strip, split into words on whitespace runs, split each word on hyphens,
re-append a dash to every syllable of a word but its last. -/
def lineSyllables (l : String) : List String :=
  ((splitWsList (stripChars l.data)).map
    (fun w => addDashes ((splitCharList '-' w).map String.mk))).flatten

/-- Model of blank_line.fullmatch with the regex ws-star newline: the
line is nonempty, entirely whitespace, and ends with a newline. -/
def blankLine (l : String) : Bool :=
  !l.data.isEmpty && l.data.all isSpaceChar && l.data.getLast? == some '\n'

/-- Errors of the transform; each constructor corresponds to one raise
site in the source and records the data interpolated into its message. -/
inductive ChartError where
  /-- Chart has no Events Section. -/
  | missingEventsSection : ChartError
  /-- Line after the Events header should contain only an open brace. -/
  | malformedEventsOpen : ChartError
  /-- Unexpected EOF during events section. -/
  | unexpectedEOFEvents : ChartError
  /-- Unexpected line in Events section (carries the line). -/
  | unexpectedEventLine (l : String) : ChartError
  /-- File has no ExpertKeyboard chart to convert. -/
  | missingTargetSection : ChartError
  /-- Line after the target header should contain only an open brace. -/
  | malformedTargetOpen : ChartError
  /-- Unexpected EOF during ExpertKeyboard chart. -/
  | unexpectedEOFTarget : ChartError
  /-- Unexpected line during ExpertKeyboard chart (carries the line). -/
  | unexpectedTargetLine (l : String) : ChartError
  /-- Not enough lines in lyric file. -/
  | notEnoughLyricLines : ChartError
  /-- Line n in the lyric file is too short. -/
  | lineTooShort (n : Nat) : ChartError
  /-- Line n of the lyric file ended too early. -/
  | lineEndedTooEarly (n : Nat) : ChartError
  /-- Too many syllables on final line of the lyric file. -/
  | extraSyllables : ChartError
  /-- Unused lines in lyric file; song ended after line n. -/
  | unusedLyricLines (n : Nat) : ChartError
deriving DecidableEq

/-- One entry of the global event list (class ChartEvent). -/
structure ChartEvent where
  time : Nat
  name : String
deriving DecidableEq

/-- ChartEvent.get_code: two spaces, the tick in decimal, then
a space-equals-space E and the quoted text. -/
def ChartEvent.get_code (e : ChartEvent) : String :=
  "  " ++ toString e.time ++ " = E \"" ++ e.name ++ "\""

/-- State of class LyricFile: remaining lines of the lyric text, the
1-based number of the last line read, and the syllable queue. -/
structure LyricFile where
  file : List String
  line : Nat
  syllable_buffer : List String
deriving DecidableEq

/-- The read-and-skip-blank-lines loop at the top of start_line: read a
line and bump the counter until the line does not match blank_line;
at end of file the read returns the empty string. -/
def readNonBlank : List String → Nat → String × List String × Nat
  | [], n => ("", [], n + 1)
  | l :: ls, n => if blankLine l then readNonBlank ls (n + 1) else (l, ls, n + 1)

/-- LyricFile.start_line: skip blank lines; at end of file either return
unchanged state (expect_eof) or fail; otherwise strip the line, tokenize
it, and extend the syllable queue. -/
def LyricFile.start_line (lf : LyricFile) (expect_eof : Bool) :
    Except ChartError LyricFile :=
  match readNonBlank lf.file lf.line with
  | (l, rest, n) =>
    if l == "" then
      if expect_eof then .ok { lf with file := rest, line := n }
      else .error .notEnoughLyricLines
    else
      .ok { lf with
              file := rest
              line := n
              syllable_buffer := lf.syllable_buffer ++ lineSyllables l }

/-- LyricFile.next_syllable: dequeue the front syllable, failing when the
queue is empty. -/
def LyricFile.next_syllable (lf : LyricFile) :
    Except ChartError (String × LyricFile) :=
  match lf.syllable_buffer with
  | [] => .error (.lineTooShort lf.line)
  | s :: rest => .ok (s, { lf with syllable_buffer := rest })

/-- LyricFile.end_line: fail when syllables remain in the queue. -/
def LyricFile.end_line (lf : LyricFile) : Except ChartError LyricFile :=
  match lf.syllable_buffer with
  | _ :: _ => .error (.lineEndedTooEarly lf.line)
  | [] => .ok lf

/-- LyricFile.end_file: fail when syllables remain; otherwise attempt one
more start_line tolerating end of file, and fail when that produced any
syllable, naming the previously processed line number. -/
def LyricFile.end_file (lf : LyricFile) : Except ChartError LyricFile :=
  match lf.syllable_buffer with
  | _ :: _ => .error .extraSyllables
  | [] =>
    match lf.start_line true with
    | .error e => .error e
    | .ok lf' =>
      match lf'.syllable_buffer with
      | _ :: _ => .error (.unusedLyricLines lf.line)
      | [] => .ok lf'

/-- The lyric source passed to convert_chart: either the silent
DummyLyricFile or a text-backed LyricFile. -/
inductive LyricSource where
  | dummy : LyricSource
  | file (lf : LyricFile) : LyricSource
deriving DecidableEq

/-- start_line on either variant (the dummy is a no-op). -/
def LyricSource.start_line : LyricSource → Except ChartError LyricSource
  | .dummy => .ok .dummy
  | .file lf => (lf.start_line false).map .file

/-- next_syllable on either variant (the dummy returns the empty
string). -/
def LyricSource.next_syllable : LyricSource → Except ChartError (String × LyricSource)
  | .dummy => .ok ("", .dummy)
  | .file lf => lf.next_syllable.map (fun p => (p.1, .file p.2))

/-- end_line on either variant (the dummy is a no-op). -/
def LyricSource.end_line : LyricSource → Except ChartError LyricSource
  | .dummy => .ok .dummy
  | .file lf => lf.end_line.map .file

/-- end_file on either variant (the dummy is a no-op). -/
def LyricSource.end_file : LyricSource → Except ChartError LyricSource
  | .dummy => .ok .dummy
  | .file lf => lf.end_file.map .file

/-- Model of fullmatch against a section-header regex of shape
ws-star, open bracket, the section name, close bracket, ws-star
(events_header and the lyric_chart_header built from the chart name). -/
def isSectionHeaderLine (name l : String) : Bool :=
  stripStr l == "[" ++ name ++ "]"

/-- Model of event_line.fullmatch: ws-star, a digit group, ws-star,
equals, ws-star, E, ws-star, a double-quoted run of non-quote
characters, ws-star; returns int(group 1) and group 2. -/
def parseEventLine (cs : List Char) : Option (Nat × String) :=
  let cs1 := dropWs cs
  let ds := cs1.takeWhile isDigitChar
  let cs2 := cs1.dropWhile isDigitChar
  if ds.isEmpty then none else
  match dropWs cs2 with
  | '=' :: cs3 =>
    match dropWs cs3 with
    | 'E' :: cs4 =>
      match dropWs cs4 with
      | '"' :: cs5 =>
        let txt := cs5.takeWhile (fun c => !(c == '"'))
        match cs5.dropWhile (fun c => !(c == '"')) with
        | '"' :: cs6 =>
          if cs6.all isSpaceChar then some (digitsToNat ds, String.mk txt)
          else none
        | _ => none
      | _ => none
    | _ => none
  | _ => none

/-- Membership of a character list in the language ws-star, digit-plus,
ws-star (tail of lyric_note_line after the captured lane). -/
def matchIntWs (cs : List Char) : Bool :=
  let cs1 := dropWs cs
  let d := cs1.takeWhile isDigitChar
  let rest := cs1.dropWhile isDigitChar
  !d.isEmpty && rest.all isSpaceChar

/-- Model of lyric_note_line.fullmatch: ws-star, a digit group, ws-star,
equals, ws-star, N, ws-star, one character of class [1-3], ws-star,
digit-plus, ws-star; returns int(group 1) and the lane character. -/
def parseLyricNote (cs : List Char) : Option (Nat × Char) :=
  let cs1 := dropWs cs
  let ds := cs1.takeWhile isDigitChar
  let cs2 := cs1.dropWhile isDigitChar
  if ds.isEmpty then none else
  match dropWs cs2 with
  | '=' :: cs3 =>
    match dropWs cs3 with
    | 'N' :: cs4 =>
      match dropWs cs4 with
      | c :: cs5 =>
        if (c == '1' || c == '2' || c == '3') && matchIntWs cs5 then
          some (digitsToNat ds, c)
        else none
      | [] => none
    | _ => none
  | _ => none

/-- Membership in the language ws-star, digit-plus, ws-star, digit-plus,
ws-star (tail of the N and S alternatives of any_note_line); the middle
ws-star may be empty, in which case the two digit groups form one run of
length at least two. -/
def matchTwoIntsWs (cs : List Char) : Bool :=
  let cs1 := dropWs cs
  let d1 := cs1.takeWhile isDigitChar
  let rest := cs1.dropWhile isDigitChar
  !d1.isEmpty &&
    ((decide (2 ≤ d1.length) && rest.all isSpaceChar) ||
     (let rest2 := dropWs rest
      let d2 := rest2.takeWhile isDigitChar
      let rest3 := rest2.dropWhile isDigitChar
      !d2.isEmpty && rest3.all isSpaceChar))

/-- Membership in the language ws-star, word-char-plus, ws-star (tail of
the E alternative of any_note_line). -/
def matchBareEventWs (cs : List Char) : Bool :=
  let cs1 := dropWs cs
  let w := cs1.takeWhile isWordChar
  let rest := cs1.dropWhile isWordChar
  !w.isEmpty && rest.all isSpaceChar

/-- Model of any_note_line.fullmatch: ws-star, digit-plus, ws-star,
equals, ws-star, then either N or S with two integers, or E with a bare
word, then ws-star. -/
def anyNoteLine (cs : List Char) : Bool :=
  let cs1 := dropWs cs
  let ds := cs1.takeWhile isDigitChar
  let cs2 := cs1.dropWhile isDigitChar
  !ds.isEmpty &&
    (match dropWs cs2 with
     | '=' :: cs3 =>
       match dropWs cs3 with
       | 'N' :: cs4 => matchTwoIntsWs cs4
       | 'S' :: cs4 => matchTwoIntsWs cs4
       | 'E' :: cs4 => matchBareEventWs cs4
       | _ => false
     | _ => false)

/-- The first loop of convert_chart: echo lines until the Events header,
failing at end of file; returns the echoed lines and the remainder after
the header line. -/
def copyPreamble : List String → Except ChartError (List String × List String)
  | [] => .error .missingEventsSection
  | l :: ls =>
    if isSectionHeaderLine "Events" l then .ok ([], ls)
    else
      match copyPreamble ls with
      | .ok (pre, rest) => .ok (l :: pre, rest)
      | .error e => .error e

/-- The open-brace check after a section header: read one line and
require that it strips to an opening brace; at end of file the read
yields the empty string, which fails the same check. -/
def expectOpenBrace (e : ChartError) : List String → Except ChartError (List String)
  | [] => .error e
  | l :: ls => if stripStr l == "\x7b" then .ok ls else .error e

/-- The Events ingestion loop: each line either matches event_line and is
appended to the buffer, or strips to a closing brace ending the section,
or is an error; end of file is an error. -/
def readEvents : List ChartEvent → List String →
    Except ChartError (List ChartEvent × List String)
  | _, [] => .error .unexpectedEOFEvents
  | acc, l :: ls =>
    match parseEventLine l.data with
    | some (t, txt) => readEvents (acc ++ [⟨t, txt⟩]) ls
    | none =>
      if stripStr l == "\x7d" then .ok (acc, ls)
      else .error (.unexpectedEventLine l)

/-- The loop that buffers lines until the target section header, failing
at end of file; returns the buffered lines and the remainder after the
header line. -/
def findTarget (chart : String) : List String →
    Except ChartError (List String × List String)
  | [] => .error .missingTargetSection
  | l :: ls =>
    if isSectionHeaderLine chart l then .ok ([], ls)
    else
      match findTarget chart ls with
      | .ok (mid, rest) => .ok (l :: mid, rest)
      | .error e => .error e

/-- Result of processing one line of the target section body: either
continue with updated lyric source and event buffer, or stop at the
closing brace. -/
inductive TargetStep where
  | cont (src : LyricSource) (evs : List ChartEvent) : TargetStep
  | stop : TargetStep
deriving DecidableEq

/-- The body of the target-section loop of convert_chart, for one line:
a lyric_note_line match drives the lyric source by lane and appends the
derived event; otherwise an any_note_line match is ignored; otherwise a
closing brace stops the loop; any other line is an error. -/
def targetStep (src : LyricSource) (evs : List ChartEvent) (l : String) :
    Except ChartError TargetStep :=
  match parseLyricNote l.data with
  | some (t, lane) =>
    if lane = '1' then
      match src.start_line with
      | .error e => .error e
      | .ok src' => .ok (.cont src' (evs ++ [⟨t, "phrase_start"⟩]))
    else if lane = '2' then
      match src.next_syllable with
      | .error e => .error e
      | .ok (syl, src') => .ok (.cont src' (evs ++ [⟨t, "lyric " ++ syl⟩]))
    else if lane = '3' then
      match src.end_line with
      | .error e => .error e
      | .ok src' => .ok (.cont src' (evs ++ [⟨t, "phrase_end"⟩]))
    else
      -- Unreachable: parseLyricNote only returns lanes 1 to 3. Mirrors
      -- the Python code path in which event_type would stay None.
      .ok (.cont src (evs ++ [⟨t, "None"⟩]))
  | none =>
    if anyNoteLine l.data then .ok (.cont src evs)
    else if stripStr l == "\x7d" then .ok .stop
    else .error (.unexpectedTargetLine l)

/-- The target-section ingestion loop: apply targetStep to each line
until the closing brace, failing at end of file; returns the final lyric
source, the event buffer, and the remainder of the input. -/
def processTarget : LyricSource → List ChartEvent → List String →
    Except ChartError (LyricSource × List ChartEvent × List String)
  | _, _, [] => .error .unexpectedEOFTarget
  | src, evs, l :: ls =>
    match targetStep src evs l with
    | .error e => .error e
    | .ok (.cont src' evs') => processTarget src' evs' ls
    | .ok .stop => .ok (src, evs, ls)

/-- Insert an event into a list before the first entry whose tick is not
smaller. Iterated over a list this computes exactly the stable sort by
the time field that the Python sorted builtin (with key attrgetter time)
performs: the result is sorted by time and entries with equal time keep
their original relative order. -/
def insertEvent (e : ChartEvent) : List ChartEvent → List ChartEvent
  | [] => [e]
  | x :: xs => if x.time < e.time then x :: insertEvent e xs else e :: x :: xs

/-- Model of sorted(global_events, key=attrgetter("time")), the stable
sort of the event buffer by tick. -/
def sortEvents : List ChartEvent → List ChartEvent
  | [] => []
  | e :: es => insertEvent e (sortEvents es)

/-- The emitted Events block: header line, opening brace line, one
get_code line per event, closing brace line. -/
def eventsBlockStr (evs : List ChartEvent) : String :=
  "[Events]\n\x7b\n" ++ String.join (evs.map (fun e => e.get_code ++ "\n")) ++ "\x7d\n"

/-- The reading phases of convert_chart in order: preamble, Events open
brace, Events body, seek target header, target open brace, target body,
end-of-file check of the lyric source; returns the echoed preamble
lines, the unsorted event buffer, the lines buffered between the Events
section and the target header, and the trailer lines after the target
section (everything to end of input). -/
def collect_chart (input : List String) (src : LyricSource) (chart : String) :
    Except ChartError (List String × List ChartEvent × List String × List String) :=
  (copyPreamble input).bind fun p1 =>
  (expectOpenBrace .malformedEventsOpen p1.2).bind fun r2 =>
  (readEvents [] r2).bind fun p3 =>
  (findTarget chart p3.2).bind fun p4 =>
  (expectOpenBrace .malformedTargetOpen p4.2).bind fun r5 =>
  (processTarget src p3.1 r5).bind fun p6 =>
  p6.1.end_file.bind fun _ =>
  .ok (p1.1, p6.2.1, p4.1, p6.2.2)

/-- convert_chart: the full transform. On success the output stream holds
the echoed preamble, the rebuilt Events block over the stable-sorted
event buffer, and the buffered diff text (the lines between the Events
section and the target header followed by the trailer lines). -/
def convert_chart (input : List String) (src : LyricSource)
    (chart : String := "ExpertKeyboard") : Except ChartError String :=
  match collect_chart input src chart with
  | .error e => .error e
  | .ok (pre, evs, mid, trail) =>
    .ok (String.join pre ++ eventsBlockStr (sortEvents evs) ++
         String.join mid ++ String.join trail)

/-- Whether the first list occurs as a leading segment of the second. -/
def startsWithSeq : List Char → List Char → Bool
  | [], _ => true
  | _ :: _, [] => false
  | a :: as, b :: bs => a == b && startsWithSeq as bs

/-- Whether the first list occurs as a contiguous segment of the
second; used to state that a piece of input text survives (or does not
survive) into the output. -/
def containsSeq (needle : List Char) : List Char → Bool
  | [] => startsWithSeq needle []
  | c :: cs => startsWithSeq needle (c :: cs) || containsSeq needle cs

/-- The chart of the output-scenario of the spec: an Events section with
one event and an ExpertKeyboard section with one note on each of lanes
1, 2 and 3. -/
def exampleChart : List String :=
  ["[Events]\n", "\x7b\n", "  100 = E \"test\"\n", "\x7d\n",
   "[ExpertKeyboard]\n", "\x7b\n",
   "200 = N 1 0\n", "250 = N 2 0\n", "300 = N 3 0\n", "\x7d\n"]

/-- C5: for the concrete input whose Events section contains the single
event line 100 = E "test" and whose ExpertKeyboard section contains the
three note lines 200 = N 1 0, 250 = N 2 0 and 300 = N 3 0, run with the
silent (no lyric file) variant, the transform succeeds and the output
Events block contains, in this order, the events 100 = E "test",
200 = E "phrase_start", 250 = E "lyric " and 300 = E "phrase_end". -/
theorem C5_scenario :
    convert_chart exampleChart .dummy "ExpertKeyboard" =
      .ok "[Events]\n\x7b\n  100 = E \"test\"\n  200 = E \"phrase_start\"\n  250 = E \"lyric \"\n  300 = E \"phrase_end\"\n\x7d\n" :=
  rfl

/-- C4 counterexample: the claim asserts that on a successful transform
all content of the input other than the Events block, including the
target track section itself, is byte-for-byte preserved in the output.
On the concrete scenario input the transform succeeds, the header line
of the target track section occurs in the input, yet it occurs nowhere
in the output: the target section is consumed and dropped, not
preserved. -/
theorem C4_counterexample :
    convert_chart exampleChart .dummy "ExpertKeyboard" =
      .ok ("[Events]\n\x7b\n  100 = E \"test\"\n  200 = E \"phrase_start\"\n" ++
           "  250 = E \"lyric \"\n  300 = E \"phrase_end\"\n\x7d\n") ∧
    containsSeq "[ExpertKeyboard]".data (String.join exampleChart).data = true ∧
    containsSeq "[ExpertKeyboard]".data
      ("[Events]\n\x7b\n  100 = E \"test\"\n  200 = E \"phrase_start\"\n" ++
       "  250 = E \"lyric \"\n  300 = E \"phrase_end\"\n\x7d\n").data = false :=
  ⟨rfl, rfl, rfl⟩

/-- C4 as amended: on a successful transform the output consists of the
preamble, the Events block rebuilt from the merged time-sorted event
set, and the remaining input content other than the Events section and
the target track section, byte-for-byte; the target track section is
consumed and does not appear in the output. -/
theorem C4_output_shape (input : List String) (src : LyricSource)
    (chart : String) (pre : List String) (evs : List ChartEvent)
    (mid trail : List String)
    (h : collect_chart input src chart = .ok (pre, evs, mid, trail)) :
    convert_chart input src chart =
      .ok (String.join pre ++ eventsBlockStr (sortEvents evs) ++
           String.join mid ++ String.join trail) := by
  unfold convert_chart
  rw [h]

/-- Witness for C4_output_shape at the concrete scenario input. -/
theorem C4_output_shape_witness :
    convert_chart exampleChart .dummy "ExpertKeyboard" =
      .ok (String.join [] ++
           eventsBlockStr (sortEvents
             [⟨100, "test"⟩, ⟨200, "phrase_start"⟩,
              ⟨250, "lyric "⟩, ⟨300, "phrase_end"⟩]) ++
           String.join [] ++ String.join []) :=
  C4_output_shape exampleChart .dummy "ExpertKeyboard" _ _ _ _ rfl

/-- C7 counterexample: the claim asserts that on the single source line
"hel-lo world" the third next_syllable call fails with the
line-too-short error; in fact start_line enqueues three syllables from
that line and the third call succeeds, returning "world". -/
theorem C7_counterexample :
    ((LyricFile.start_line ⟨["hel-lo world\n"], 0, []⟩ false).bind fun lf =>
      lf.next_syllable.bind fun p1 =>
        p1.2.next_syllable.bind fun p2 =>
          p2.2.next_syllable.map fun p3 => (p1.1, p2.1, p3.1)) =
      .ok ("hel-", "lo", "world") :=
  rfl

/-- C7 as amended: on the single source line "hel-lo world", start_line
followed by three next_syllable calls yields "hel-", "lo" and "world"
in that order, and a fourth call fails with the line-too-short error;
a source line consisting of the single word "world" enqueues exactly
one syllable "world". -/
theorem C7_hyphenation :
    ((LyricFile.start_line ⟨["hel-lo world\n"], 0, []⟩ false).map
      fun lf => lf.syllable_buffer) = .ok ["hel-", "lo", "world"] ∧
    ((LyricFile.start_line ⟨["hel-lo world\n"], 0, []⟩ false).bind fun lf =>
      lf.next_syllable.bind fun p1 =>
        p1.2.next_syllable.bind fun p2 =>
          p2.2.next_syllable.bind fun p3 =>
            p3.2.next_syllable.map fun p4 => (p1.1, p2.1, p3.1, p4.1)) =
      .error (.lineTooShort 1) ∧
    LyricFile.start_line ⟨["world\n"], 0, []⟩ false = .ok ⟨[], 1, ["world"]⟩ :=
  ⟨rfl, rfl, rfl⟩

/-- Inserting an event permutes consing it in front. -/
theorem insertEvent_perm (e : ChartEvent) (l : List ChartEvent) :
    List.Perm (insertEvent e l) (e :: l) := by
  induction l with
  | nil => exact List.Perm.refl _
  | cons x xs ih =>
    by_cases h : x.time < e.time
    · simp only [insertEvent, if_pos h]
      exact (List.Perm.cons x ih).trans (List.Perm.swap e x xs)
    · simp only [insertEvent, if_neg h]
      exact List.Perm.refl _

/-- Inserting an event preserves sortedness by time. -/
theorem insertEvent_pairwise (e : ChartEvent) (l : List ChartEvent)
    (h : l.Pairwise (fun a b => a.time ≤ b.time)) :
    (insertEvent e l).Pairwise (fun a b => a.time ≤ b.time) := by
  induction l with
  | nil => simp [insertEvent]
  | cons x xs ih =>
    rcases List.pairwise_cons.mp h with ⟨hx, hxs⟩
    by_cases hlt : x.time < e.time
    · simp only [insertEvent, if_pos hlt]
      refine List.Pairwise.cons ?_ (ih hxs)
      intro y hy
      rcases List.mem_cons.mp ((insertEvent_perm e xs).mem_iff.mp hy) with h1 | hy'
      · rw [h1]; exact Nat.le_of_lt hlt
      · exact hx y hy'
    · simp only [insertEvent, if_neg hlt]
      have hex : e.time ≤ x.time := Nat.le_of_not_lt hlt
      refine List.Pairwise.cons ?_ (List.Pairwise.cons hx hxs)
      intro y hy
      rcases List.mem_cons.mp hy with h1 | hy'
      · rw [h1]; exact hex
      · exact Nat.le_trans hex (hx y hy')

/-- The sorted event buffer is non-decreasing in the time field. -/
theorem sortEvents_pairwise (l : List ChartEvent) :
    (sortEvents l).Pairwise (fun a b => a.time ≤ b.time) := by
  induction l with
  | nil => simp [sortEvents]
  | cons e es ih => exact insertEvent_pairwise e _ ih

/-- The sorted event buffer is a permutation of the buffer. -/
theorem sortEvents_perm (l : List ChartEvent) : List.Perm (sortEvents l) l := by
  induction l with
  | nil => exact List.Perm.refl _
  | cons e es ih => exact (insertEvent_perm e _).trans (List.Perm.cons e ih)

/-- Inserting an event leaves every equal-time fiber of the list in
place, with the new event in front of its own fiber. -/
theorem insertEvent_filter (e : ChartEvent) (l : List ChartEvent) (t : Nat) :
    (insertEvent e l).filter (fun x => x.time == t) =
      (if e.time = t then e :: l.filter (fun x => x.time == t)
       else l.filter (fun x => x.time == t)) := by
  induction l with
  | nil =>
    by_cases h : e.time = t <;> simp [insertEvent, h]
  | cons x xs ih =>
    by_cases hlt : x.time < e.time
    · simp only [insertEvent, if_pos hlt, List.filter_cons]
      by_cases hx : x.time = t
      · have het : ¬ e.time = t := by omega
        simp [hx, het, ih]
      · simp [hx, ih]
    · simp only [insertEvent, if_neg hlt, List.filter_cons]
      by_cases het : e.time = t <;> simp [het]

/-- Stability of the sort: every equal-time fiber of the sorted buffer
equals the corresponding fiber of the unsorted buffer, so events with
equal ticks keep their original insertion order. -/
theorem sortEvents_filter (l : List ChartEvent) (t : Nat) :
    (sortEvents l).filter (fun x => x.time == t) =
      l.filter (fun x => x.time == t) := by
  induction l with
  | nil => rfl
  | cons e es ih =>
    simp only [sortEvents, insertEvent_filter, ih, List.filter_cons]
    by_cases h : e.time = t <;> simp [h]

/-- C2: for every input chart on which the transform succeeds, the event
list emitted in the output Events block (the stable sort of the buffer
holding the pre-existing events in section order followed by the derived
note events in note-stream order) is non-decreasing in tick, is a
permutation of that buffer, and keeps every set of events sharing a tick
in original insertion order. -/
theorem C2_sort_stable (input : List String) (src : LyricSource)
    (chart : String) (pre : List String) (evs : List ChartEvent)
    (mid trail : List String)
    (_h : collect_chart input src chart = .ok (pre, evs, mid, trail)) :
    (sortEvents evs).Pairwise (fun a b => a.time ≤ b.time) ∧
    List.Perm (sortEvents evs) evs ∧
    ∀ t : Nat, (sortEvents evs).filter (fun x => x.time == t) =
      evs.filter (fun x => x.time == t) :=
  ⟨sortEvents_pairwise evs, sortEvents_perm evs, fun t => sortEvents_filter evs t⟩

/-- The event buffer collected from the concrete scenario input. -/
def exampleEvents : List ChartEvent :=
  [⟨100, "test"⟩, ⟨200, "phrase_start"⟩, ⟨250, "lyric "⟩, ⟨300, "phrase_end"⟩]

/-- Witness for C2_sort_stable at the concrete scenario input. -/
theorem C2_sort_stable_witness :
    (sortEvents exampleEvents).Pairwise (fun a b => a.time ≤ b.time) ∧
    List.Perm (sortEvents exampleEvents) exampleEvents ∧
    (sortEvents exampleEvents).filter (fun x => x.time == 250) =
      exampleEvents.filter (fun x => x.time == 250) :=
  ⟨(C2_sort_stable exampleChart .dummy "ExpertKeyboard" [] exampleEvents [] [] rfl).1,
   (C2_sort_stable exampleChart .dummy "ExpertKeyboard" [] exampleEvents [] [] rfl).2.1,
   (C2_sort_stable exampleChart .dummy "ExpertKeyboard" [] exampleEvents [] [] rfl).2.2 250⟩

/-- C1: for every target-section line, the lane-to-event mapping is
exact: a lyric_note_line match with lane 1 calls start_line and appends
an event with text phrase_start at the tick of the note; lane 2 calls
next_syllable and appends an event whose text is the prefix
"lyric " followed by the returned syllable (the empty string on the
silent variant); lane 3 calls end_line and appends an event with text
phrase_end; and every other line matched by any_note_line (including N
or S lines with lanes outside 1 to 3) appends no event and raises no
error. -/
theorem C1_lane_mapping (src : LyricSource) (evs : List ChartEvent)
    (l : String) (t : Nat) (lane : Char) :
    (parseLyricNote l.data = some (t, lane) →
      ((lane = '1' → targetStep src evs l =
          Except.map (fun s => TargetStep.cont s (evs ++ [⟨t, "phrase_start"⟩]))
            src.start_line) ∧
       (lane = '2' → targetStep src evs l =
          Except.map (fun p => TargetStep.cont p.2 (evs ++ [⟨t, "lyric " ++ p.1⟩]))
            src.next_syllable) ∧
       (lane = '2' → src = .dummy →
          targetStep src evs l = .ok (.cont .dummy (evs ++ [⟨t, "lyric "⟩]))) ∧
       (lane = '3' → targetStep src evs l =
          Except.map (fun s => TargetStep.cont s (evs ++ [⟨t, "phrase_end"⟩]))
            src.end_line))) ∧
    (parseLyricNote l.data = none → anyNoteLine l.data = true →
      targetStep src evs l = .ok (.cont src evs)) := by
  constructor
  · intro h
    refine ⟨?_, ?_, ?_, ?_⟩
    · intro hl
      subst hl
      simp only [targetStep, h]
      cases hs : src.start_line <;> simp [hs, Except.map]
    · intro hl
      subst hl
      simp only [targetStep, h]
      cases hs : src.next_syllable <;> simp [hs, Except.map]
    · intro hl hsrc
      subst hl
      subst hsrc
      simp only [targetStep, h]
      rfl
    · intro hl
      subst hl
      simp only [targetStep, h]
      cases hs : src.end_line <;> simp [hs, Except.map]
  · intro h hn
    simp [targetStep, h, hn]

/-- Witness for C1_lane_mapping at concrete note lines for lanes 1, 2, 3
and a lane outside the recognized set. -/
theorem C1_lane_mapping_witness :
    (targetStep .dummy [] "200 = N 1 0\n" =
      Except.map (fun s => TargetStep.cont s ([] ++ [⟨200, "phrase_start"⟩]))
        LyricSource.dummy.start_line) ∧
    (targetStep .dummy [] "250 = N 2 0\n" =
      .ok (.cont .dummy ([] ++ [⟨250, "lyric "⟩]))) ∧
    (targetStep .dummy [] "300 = N 3 0\n" =
      Except.map (fun s => TargetStep.cont s ([] ++ [⟨300, "phrase_end"⟩]))
        LyricSource.dummy.end_line) ∧
    (targetStep .dummy [] "123 = N 5 0\n" = .ok (.cont .dummy [])) :=
  ⟨((C1_lane_mapping .dummy [] "200 = N 1 0\n" 200 '1').1 rfl).1 rfl,
   ((C1_lane_mapping .dummy [] "250 = N 2 0\n" 250 '2').1 rfl).2.2.1 rfl rfl,
   ((C1_lane_mapping .dummy [] "300 = N 3 0\n" 300 '3').1 rfl).2.2.2 rfl,
   (C1_lane_mapping .dummy [] "123 = N 5 0\n" 0 '0').2 rfl rfl⟩

/-- C6: for every input whose line immediately following the Events
header line does not strip to exactly an opening brace (including the
case where the input ends right after the header, where the read yields
the empty string), the transform fails with the malformed-section-open
error; the Except result carries no output string. -/
theorem C6_malformed_events_open (input : List String) (src : LyricSource)
    (chart : String) (pre rest : List String)
    (h1 : copyPreamble input = .ok (pre, rest))
    (h2 : stripStr (rest.headD "") ≠ "\x7b") :
    convert_chart input src chart = .error .malformedEventsOpen := by
  unfold convert_chart collect_chart
  rw [h1]
  cases rest with
  | nil => simp [Except.bind, expectOpenBrace]
  | cons l ls =>
    rw [List.headD_cons] at h2
    have hb : (stripStr l == "\x7b") = false := beq_eq_false_iff_ne.mpr h2
    simp [Except.bind, expectOpenBrace, hb]

/-- Witness for C6_malformed_events_open at a concrete malformed
input. -/
theorem C6_malformed_events_open_witness :
    convert_chart ["[Events]\n", "oops\n"] .dummy "ExpertKeyboard" =
      .error .malformedEventsOpen :=
  C6_malformed_events_open ["[Events]\n", "oops\n"] .dummy "ExpertKeyboard"
    [] ["oops\n"] rfl (by decide)

/-- start_line with expect_eof set never fails: at end of file it
returns without touching the queue, otherwise it enqueues a line. -/
theorem start_line_expect_eof_ok (lf : LyricFile) :
    ∃ lf', lf.start_line true = .ok lf' := by
  unfold LyricFile.start_line
  rcases h : readNonBlank lf.file lf.line with ⟨l, rest, n⟩
  by_cases hl : (l == "") = true <;> simp [hl]

/-- On a list of lines all matching blank_line, the skip loop consumes
everything and reads past end of file. -/
theorem readNonBlank_all_blank (ls : List String) (n : Nat)
    (h : ∀ l ∈ ls, blankLine l = true) :
    readNonBlank ls n = ("", [], n + ls.length + 1) := by
  induction ls generalizing n with
  | nil => simp [readNonBlank]
  | cons l ls ih =>
    have hl := h l (List.mem_cons_self _ _)
    simp only [readNonBlank, hl, if_pos, List.length_cons]
    rw [ih (n + 1) (fun x hx => h x (List.mem_cons_of_mem _ hx))]
    simp only [Prod.mk.injEq]
    exact ⟨trivial, trivial, by omega⟩

/-- C9: the end-of-song check of the text-backed lyric source fails with
the extra-syllables error when syllables remain queued; with an empty
queue it performs one more start_line tolerating end of source, then
fails with the unused-lyric-lines error (naming the last processed line
number) exactly when that attempt enqueued anything; and when the
remaining source holds no further non-blank content it succeeds. -/
theorem C9_end_of_song (lf : LyricFile) :
    (lf.syllable_buffer ≠ [] → lf.end_file = .error .extraSyllables) ∧
    (lf.syllable_buffer = [] →
      ∃ lf', lf.start_line true = .ok lf' ∧
        lf.end_file = (if lf'.syllable_buffer = [] then .ok lf'
                       else .error (.unusedLyricLines lf.line))) ∧
    (lf.syllable_buffer = [] → (∀ l ∈ lf.file, blankLine l = true) →
      ∃ lf', lf.end_file = .ok lf') := by
  refine ⟨?_, ?_, ?_⟩
  · intro h
    cases hb : lf.syllable_buffer with
    | nil => exact absurd hb h
    | cons s rest => simp [LyricFile.end_file, hb]
  · intro h
    obtain ⟨lf', hok⟩ := start_line_expect_eof_ok lf
    refine ⟨lf', hok, ?_⟩
    simp only [LyricFile.end_file, h, hok]
    cases hb : lf'.syllable_buffer <;> simp [hb]
  · intro h hblank
    have hsl : lf.start_line true =
        .ok { lf with file := [], line := lf.line + lf.file.length + 1 } := by
      unfold LyricFile.start_line
      rw [readNonBlank_all_blank lf.file lf.line hblank]
      rfl
    refine ⟨{ lf with file := [], line := lf.line + lf.file.length + 1 }, ?_⟩
    simp only [LyricFile.end_file, h, hsl]

/-- Witness for C9_end_of_song: a state with a leftover syllable, a
state whose source still holds a lyric line, and a state whose source
holds only a blank line. -/
theorem C9_end_of_song_witness :
    (LyricFile.end_file ⟨[], 3, ["x"]⟩ = .error .extraSyllables) ∧
    (∃ lf', LyricFile.start_line ⟨["la\n"], 0, []⟩ true = .ok lf' ∧
      LyricFile.end_file ⟨["la\n"], 0, []⟩ =
        (if lf'.syllable_buffer = [] then .ok lf'
         else .error (.unusedLyricLines 0))) ∧
    (∃ lf', LyricFile.end_file ⟨[" \n"], 2, []⟩ = .ok lf') :=
  ⟨(C9_end_of_song ⟨[], 3, ["x"]⟩).1 (by simp),
   (C9_end_of_song ⟨["la\n"], 0, []⟩).2.1 rfl,
   (C9_end_of_song ⟨[" \n"], 2, []⟩).2.2 rfl (by decide)⟩

/-- The skip loop stops at the first line not matching blank_line,
having consumed the blank prefix and bumped the counter once per line
read. -/
theorem readNonBlank_skip (blanks : List String) (l : String)
    (rest : List String) (n : Nat)
    (hb : ∀ b ∈ blanks, blankLine b = true) (hl : blankLine l = false) :
    readNonBlank (blanks ++ l :: rest) n = (l, rest, n + blanks.length + 1) := by
  induction blanks generalizing n with
  | nil => simp [readNonBlank, hl]
  | cons b bs ih =>
    have hbb := hb b (List.mem_cons_self _ _)
    rw [List.cons_append]
    simp only [readNonBlank, hbb, if_pos, List.length_cons]
    rw [ih (n + 1) (fun x hx => hb x (List.mem_cons_of_mem _ hx))]
    simp only [Prod.mk.injEq]
    exact ⟨trivial, trivial, by omega⟩

/-- C8: for every non-blank line of the lyric source (reached after
skipping any run of blank lines), start_line extends the syllable queue,
in order, with the words of the stripped line split on whitespace runs,
each word split on hyphens, and a hyphen re-appended to every syllable
of a word except its last. -/
theorem C8_tokenization (lf : LyricFile) (blanks : List String) (l : String)
    (rest : List String)
    (hfile : lf.file = blanks ++ l :: rest)
    (hb : ∀ b ∈ blanks, blankLine b = true)
    (hl : blankLine l = false) (hne : l ≠ "") :
    lf.start_line false = .ok
      { lf with
          file := rest
          line := lf.line + blanks.length + 1
          syllable_buffer := lf.syllable_buffer ++
            ((splitWsList (stripChars l.data)).map
              (fun w => addDashes ((splitCharList '-' w).map String.mk))).flatten } := by
  unfold LyricFile.start_line
  rw [hfile, readNonBlank_skip blanks l rest lf.line hb hl]
  have hbe : (l == "") = false := beq_eq_false_iff_ne.mpr hne
  simp [hbe, lineSyllables]

/-- Witness for C8_tokenization: a blank line followed by the line
"a-b c". -/
theorem C8_tokenization_witness :
    LyricFile.start_line ⟨[" \n", "a-b c\n"], 5, ["x"]⟩ false =
      .ok ⟨[], 7, ["x", "a-", "b", "c"]⟩ :=
  C8_tokenization ⟨[" \n", "a-b c\n"], 5, ["x"]⟩ [" \n"] "a-b c\n" []
    rfl (by decide) (by decide) (by decide)

/-- Inversion of a successful Except bind. -/
theorem except_bind_ok {α β : Type} {ma : Except ChartError α}
    {f : α → Except ChartError β} {b : β} (h : ma.bind f = .ok b) :
    ∃ a, ma = .ok a ∧ f a = .ok b := by
  cases ma with
  | error e => exact Except.noConfusion h
  | ok a => exact ⟨a, rfl, h⟩

/-- A successful preamble copy decomposes the input as the echoed lines
(none of which matches the Events header), the Events header line, and
the remainder. -/
theorem copyPreamble_decomp (input pre rest : List String)
    (h : copyPreamble input = .ok (pre, rest)) :
    ∃ hdr, input = pre ++ hdr :: rest ∧
      isSectionHeaderLine "Events" hdr = true ∧
      ∀ l ∈ pre, isSectionHeaderLine "Events" l = false := by
  induction input generalizing pre with
  | nil => exact Except.noConfusion h
  | cons l ls ih =>
    simp only [copyPreamble] at h
    by_cases hl : isSectionHeaderLine "Events" l = true
    · simp only [hl, if_pos, Except.ok.injEq, Prod.mk.injEq] at h
      obtain ⟨h1, h2⟩ := h
      subst h1; subst h2
      exact ⟨l, by simp, hl, by simp⟩
    · rw [if_neg hl] at h
      cases hc : copyPreamble ls with
      | error e => rw [hc] at h; exact Except.noConfusion h
      | ok p =>
        obtain ⟨pre', rest'⟩ := p
        rw [hc] at h
        have h' : (Except.ok (l :: pre', rest') :
            Except ChartError (List String × List String)) = .ok (pre, rest) := h
        injection h' with hp
        injection hp with h1 h2
        subst h2
        subst h1
        obtain ⟨hdr, hin, hhd, hno⟩ := ih pre' hc
        refine ⟨hdr, ?_, hhd, ?_⟩
        · rw [hin, List.cons_append]
        · intro x hx
          rcases List.mem_cons.mp hx with h1 | h1
          · rw [h1]
            cases hv : isSectionHeaderLine "Events" l
            · rfl
            · exact absurd hv hl
          · exact hno x h1

/-- A successful seek of the target section decomposes the remaining
input as the buffered diff lines (none of which matches the target
header), the target header line, and the remainder. -/
theorem findTarget_decomp (chart : String) (ls mid rest : List String)
    (h : findTarget chart ls = .ok (mid, rest)) :
    ∃ hdr, ls = mid ++ hdr :: rest ∧
      isSectionHeaderLine chart hdr = true ∧
      ∀ l ∈ mid, isSectionHeaderLine chart l = false := by
  induction ls generalizing mid with
  | nil => exact Except.noConfusion h
  | cons l ls ih =>
    simp only [findTarget] at h
    by_cases hl : isSectionHeaderLine chart l = true
    · simp only [hl, if_pos, Except.ok.injEq, Prod.mk.injEq] at h
      obtain ⟨h1, h2⟩ := h
      subst h1; subst h2
      exact ⟨l, by simp, hl, by simp⟩
    · rw [if_neg hl] at h
      cases hc : findTarget chart ls with
      | error e => rw [hc] at h; exact Except.noConfusion h
      | ok p =>
        obtain ⟨mid', rest'⟩ := p
        rw [hc] at h
        have h' : (Except.ok (l :: mid', rest') :
            Except ChartError (List String × List String)) = .ok (mid, rest) := h
        injection h' with hp
        injection hp with h1 h2
        subst h2
        subst h1
        obtain ⟨hdr, hin, hhd, hno⟩ := ih mid' hc
        refine ⟨hdr, ?_, hhd, ?_⟩
        · rw [hin, List.cons_append]
        · intro x hx
          rcases List.mem_cons.mp hx with h1 | h1
          · rw [h1]
            cases hv : isSectionHeaderLine chart l
            · rfl
            · exact absurd hv hl
          · exact hno x h1

/-- A successful open-brace check consumes exactly one line, which
strips to an opening brace. -/
theorem expectOpenBrace_decomp {e : ChartError} {r r2 : List String}
    (h : expectOpenBrace e r = .ok r2) :
    ∃ l, r = l :: r2 ∧ stripStr l = "\x7b" := by
  cases r with
  | nil => exact Except.noConfusion h
  | cons l ls =>
    simp only [expectOpenBrace] at h
    by_cases hb : (stripStr l == "\x7b") = true
    · simp only [hb, if_pos, Except.ok.injEq] at h
      subst h
      exact ⟨l, rfl, eq_of_beq hb⟩
    · simp [hb] at h

/-- A successful Events ingestion consumes exactly a run of lines each
matching event_line, followed by one line stripping to a closing
brace. -/
theorem readEvents_decomp (acc : List ChartEvent) (ls : List String)
    (evs : List ChartEvent) (rest : List String)
    (h : readEvents acc ls = .ok (evs, rest)) :
    ∃ body cbr, ls = body ++ cbr :: rest ∧
      (∀ l ∈ body, (parseEventLine l.data).isSome = true) ∧
      stripStr cbr = "\x7d" := by
  induction ls generalizing acc with
  | nil => exact Except.noConfusion h
  | cons l ls ih =>
    simp only [readEvents] at h
    cases hp : parseEventLine l.data with
    | some p =>
      obtain ⟨t, txt⟩ := p
      simp only [hp] at h
      obtain ⟨body, cbr, hseg, hbody, hcbr⟩ := ih _ h
      refine ⟨l :: body, cbr, ?_, ?_, hcbr⟩
      · rw [hseg, List.cons_append]
      · intro x hx
        rcases List.mem_cons.mp hx with h1 | h1
        · rw [h1, hp]; rfl
        · exact hbody x h1
    | none =>
      simp only [hp] at h
      by_cases hb : (stripStr l == "\x7d") = true
      · simp only [hb, if_pos, Except.ok.injEq, Prod.mk.injEq] at h
        obtain ⟨h1, h2⟩ := h
        subst h2
        exact ⟨[], l, rfl, by simp, eq_of_beq hb⟩
      · simp [hb] at h

/-- A continuing step of the target loop comes from a line matched by
lyric_note_line or by any_note_line. -/
theorem targetStep_cont_shape (src : LyricSource) (evs : List ChartEvent)
    (l : String) (src2 : LyricSource) (evs2 : List ChartEvent)
    (h : targetStep src evs l = .ok (.cont src2 evs2)) :
    (parseLyricNote l.data).isSome = true ∨ anyNoteLine l.data = true := by
  cases hp : parseLyricNote l.data with
  | some p => left; rfl
  | none =>
    simp only [targetStep, hp] at h
    by_cases ha : anyNoteLine l.data = true
    · exact Or.inr ha
    · exfalso
      rw [if_neg ha] at h
      by_cases hs : (stripStr l == "\x7d") = true
      · rw [if_pos hs] at h
        simp at h
      · rw [if_neg hs] at h
        exact Except.noConfusion h

/-- A stopping step of the target loop comes from a line matched by
neither note pattern that strips to a closing brace. -/
theorem targetStep_stop_shape (src : LyricSource) (evs : List ChartEvent)
    (l : String) (h : targetStep src evs l = .ok .stop) :
    parseLyricNote l.data = none ∧ anyNoteLine l.data = false ∧
      stripStr l = "\x7d" := by
  cases hp : parseLyricNote l.data with
  | some p =>
    exfalso
    obtain ⟨t, lane⟩ := p
    simp only [targetStep, hp] at h
    by_cases h1 : lane = '1'
    · rw [if_pos h1] at h
      cases hs : src.start_line with
      | error e => rw [hs] at h; simp at h
      | ok s2 => rw [hs] at h; simp at h
    · rw [if_neg h1] at h
      by_cases h2 : lane = '2'
      · rw [if_pos h2] at h
        cases hs : src.next_syllable with
        | error e => rw [hs] at h; simp at h
        | ok p2 =>
          obtain ⟨syl, s2⟩ := p2
          rw [hs] at h; simp at h
      · rw [if_neg h2] at h
        by_cases h3 : lane = '3'
        · rw [if_pos h3] at h
          cases hs : src.end_line with
          | error e => rw [hs] at h; simp at h
          | ok s2 => rw [hs] at h; simp at h
        · rw [if_neg h3] at h
          simp at h
  | none =>
    simp only [targetStep, hp] at h
    by_cases ha : anyNoteLine l.data = true
    · rw [if_pos ha] at h
      simp at h
    · by_cases hs : (stripStr l == "\x7d") = true
      · have haf : anyNoteLine l.data = false := by
          cases hv : anyNoteLine l.data
          · rfl
          · exact absurd hv ha
        exact ⟨rfl, haf, eq_of_beq hs⟩
      · rw [if_neg ha, if_neg hs] at h
        exact Except.noConfusion h

/-- A successful target-section ingestion consumes exactly a run of
lines each matching lyric_note_line or any_note_line, followed by one
line stripping to a closing brace. -/
theorem processTarget_decomp (src : LyricSource) (evs : List ChartEvent)
    (ls : List String) (src' : LyricSource) (evs' : List ChartEvent)
    (rest : List String)
    (h : processTarget src evs ls = .ok (src', evs', rest)) :
    ∃ body cbr, ls = body ++ cbr :: rest ∧
      (∀ l ∈ body, (parseLyricNote l.data).isSome = true ∨
        anyNoteLine l.data = true) ∧
      stripStr cbr = "\x7d" := by
  induction ls generalizing src evs with
  | nil => exact Except.noConfusion h
  | cons l ls ih =>
    simp only [processTarget] at h
    cases ht : targetStep src evs l with
    | error e => simp only [ht] at h; exact Except.noConfusion h
    | ok st =>
      cases st with
      | cont src2 evs2 =>
        simp only [ht] at h
        obtain ⟨body, cbr, hseg, hbody, hcbr⟩ := ih src2 evs2 h
        refine ⟨l :: body, cbr, ?_, ?_, hcbr⟩
        · rw [hseg, List.cons_append]
        · intro x hx
          rcases List.mem_cons.mp hx with h1 | h1
          · rw [h1]
            exact targetStep_cont_shape src evs l src2 evs2 ht
          · exact hbody x h1
      | stop =>
        simp only [ht, Except.ok.injEq, Prod.mk.injEq] at h
        obtain ⟨h1, h2, h3⟩ := h
        subst h3
        obtain ⟨hpn, han, hstrip⟩ := targetStep_stop_shape src evs l ht
        exact ⟨[], l, rfl, by simp, hstrip⟩

/-- C3: on every successful transform the four segments returned by
collect_chart are the components of the output, the input decomposes
exactly into the preamble (no line of which matches the Events header),
the Events header line, its opening brace line, a run of event_line
matches, the Events closing brace line, the middle lines (no line of
which matches the target header), the target header line, its opening
brace line, a run of note or ignored note-shaped lines, the target
closing brace line, and the trailer (everything to end of input); and
the output is byte-for-byte the preamble, the rebuilt Events block, the
middle lines, and the trailer. -/
theorem C3_untouched_sections (input : List String) (src : LyricSource)
    (chart : String) (out : String)
    (h : convert_chart input src chart = .ok out) :
    ∃ (pre : List String) (evs : List ChartEvent) (mid trail : List String),
      collect_chart input src chart = .ok (pre, evs, mid, trail) ∧
      (∃ (hdrE obrE : String) (evBody : List String) (cbrE : String)
         (hdrT obrT : String) (tgtBody : List String) (cbrT : String),
        input = pre ++ hdrE :: obrE ::
          (evBody ++ cbrE :: (mid ++ hdrT :: obrT ::
            (tgtBody ++ cbrT :: trail))) ∧
        (∀ l ∈ pre, isSectionHeaderLine "Events" l = false) ∧
        isSectionHeaderLine "Events" hdrE = true ∧
        stripStr obrE = "\x7b" ∧
        (∀ l ∈ evBody, (parseEventLine l.data).isSome = true) ∧
        stripStr cbrE = "\x7d" ∧
        (∀ l ∈ mid, isSectionHeaderLine chart l = false) ∧
        isSectionHeaderLine chart hdrT = true ∧
        stripStr obrT = "\x7b" ∧
        (∀ l ∈ tgtBody, (parseLyricNote l.data).isSome = true ∨
          anyNoteLine l.data = true) ∧
        stripStr cbrT = "\x7d") ∧
      out = String.join pre ++ eventsBlockStr (sortEvents evs) ++
            String.join mid ++ String.join trail := by
  unfold convert_chart at h
  cases hc : collect_chart input src chart with
  | error e => rw [hc] at h; exact Except.noConfusion h
  | ok q =>
    rw [hc] at h
    obtain ⟨pre, evs, mid, trail⟩ := q
    simp only [Except.ok.injEq] at h
    subst h
    unfold collect_chart at hc
    obtain ⟨p1, hc1, hc⟩ := except_bind_ok hc
    obtain ⟨r2, hc2, hc⟩ := except_bind_ok hc
    obtain ⟨p3, hc3, hc⟩ := except_bind_ok hc
    obtain ⟨p4, hc4, hc⟩ := except_bind_ok hc
    obtain ⟨r5, hc5, hc⟩ := except_bind_ok hc
    obtain ⟨p6, hc6, hc⟩ := except_bind_ok hc
    obtain ⟨sfin, hc7, hc⟩ := except_bind_ok hc
    simp only [Except.ok.injEq, Prod.mk.injEq] at hc
    obtain ⟨hpre, hevs, hmid, htrail⟩ := hc
    obtain ⟨hdrE, hin1, hhdE, hpreNo⟩ := copyPreamble_decomp input p1.1 p1.2
      (by rw [← hc1])
    obtain ⟨obrE, hin2, hobE⟩ := expectOpenBrace_decomp hc2
    obtain ⟨evBody, cbrE, hin3, hevB, hcbE⟩ := readEvents_decomp [] r2 p3.1 p3.2
      (by rw [← hc3])
    obtain ⟨hdrT, hin4, hhdT, hmidNo⟩ := findTarget_decomp chart p3.2 p4.1 p4.2
      (by rw [← hc4])
    obtain ⟨obrT, hin5, hobT⟩ := expectOpenBrace_decomp hc5
    obtain ⟨tgtBody, cbrT, hin6, htgB, hcbT⟩ :=
      processTarget_decomp src p3.1 r5 p6.1 p6.2.1 p6.2.2 (by rw [← hc6])
    refine ⟨p1.1, p6.2.1, p4.1, p6.2.2, ?_,
      ⟨hdrE, obrE, evBody, cbrE, hdrT, obrT, tgtBody, cbrT,
        ?_, hpreNo, hhdE, hobE, hevB, hcbE, hmidNo, hhdT, hobT, htgB, hcbT⟩,
      ?_⟩
    · rw [hpre, hevs, hmid, htrail]
    · rw [hin1, hin2, hin3, hin4, hin5, hin6]
    · rw [hpre, hevs, hmid, htrail]

/-- The head of the list, if any, fails the predicate (the stopping
condition of a greedy scan). -/
abbrev headFails (p : Char → Bool) : List Char → Prop
  | [] => True
  | x :: _ => p x = false

/-- A greedy takeWhile over an append takes exactly the first part when
that part satisfies the predicate and the second part stops it. -/
theorem takeWhile_append_of {p : Char → Bool} {D r : List Char}
    (hD : ∀ x ∈ D, p x = true) (hr : headFails p r) :
    (D ++ r).takeWhile p = D := by
  induction D with
  | nil =>
    cases r with
    | nil => rfl
    | cons x xs =>
      have hx : p x = false := hr
      simp [List.takeWhile_cons, hx]
  | cons x xs ih =>
    simp [List.takeWhile_cons, hD x (List.mem_cons_self _ _),
      ih (fun y hy => hD y (List.mem_cons_of_mem _ hy))]

/-- A greedy dropWhile over an append drops exactly the first part when
that part satisfies the predicate and the second part stops it. -/
theorem dropWhile_append_of {p : Char → Bool} {D r : List Char}
    (hD : ∀ x ∈ D, p x = true) (hr : headFails p r) :
    (D ++ r).dropWhile p = r := by
  induction D with
  | nil =>
    cases r with
    | nil => rfl
    | cons x xs =>
      have hx : p x = false := hr
      simp [List.dropWhile_cons, hx]
  | cons x xs ih =>
    simp [List.dropWhile_cons, hD x (List.mem_cons_self _ _),
      ih (fun y hy => hD y (List.mem_cons_of_mem _ hy))]

/-- The head of a nonempty append fails p when the left part fails p
everywhere. -/
theorem headFails_append_left {p : Char → Bool} {D r : List Char}
    (hne : D ≠ []) (h : ∀ x ∈ D, p x = false) : headFails p (D ++ r) := by
  cases D with
  | nil => exact absurd rfl hne
  | cons x xs => exact h x (List.mem_cons_self _ _)

/-- The head of an append whose left part is all whitespace fails a
predicate that fails on whitespace, provided the right part stops it
too. -/
theorem headFails_ws_then {p : Char → Bool} {b r : List Char}
    (hb : ∀ x ∈ b, isSpaceChar x = true)
    (hsp : ∀ x, isSpaceChar x = true → p x = false)
    (hr : headFails p r) : headFails p (b ++ r) := by
  cases b with
  | nil => exact hr
  | cons x xs => exact hsp x (hb x (List.mem_cons_self _ _))

/-- No whitespace character is a digit. -/
theorem space_not_digit : ∀ x : Char, isSpaceChar x = true → isDigitChar x = false := by
  intro x h
  simp only [isSpaceChar, Bool.or_eq_true, beq_iff_eq] at h
  rcases h with ((((h | h) | h) | h) | h) | h <;> subst h <;> decide

/-- No digit character is whitespace. -/
theorem digit_not_space : ∀ x : Char, isDigitChar x = true → isSpaceChar x = false := by
  intro x h
  cases hs : isSpaceChar x
  · rfl
  · exfalso
    simp only [isSpaceChar, Bool.or_eq_true, beq_iff_eq] at hs
    rcases hs with ((((hs | hs) | hs) | hs) | hs) | hs <;> subst hs <;>
      exact absurd h (by decide)

/-- Leading zeros do not change the parsed value of a digit string. -/
theorem digitsToNat_leading_zeros (k : Nat) (ds : List Char) :
    digitsToNat (List.replicate k '0' ++ ds) = digitsToNat ds := by
  induction k with
  | zero => rfl
  | succ n ih =>
    rw [List.replicate_succ, List.cons_append]
    show digitsToNat (List.replicate n '0' ++ ds) = digitsToNat ds
    exact ih

/-- parseEventLine on an arbitrarily padded event line: whatever
whitespace surrounds the pieces, a nonempty digit group D, the equals
sign, the E, and a quoted text yield exactly int(D) and the text. -/
theorem parseEventLine_shape (a D b c d e txt : List Char)
    (ha : ∀ x ∈ a, isSpaceChar x = true)
    (hD : D ≠ []) (hDdig : ∀ x ∈ D, isDigitChar x = true)
    (hb : ∀ x ∈ b, isSpaceChar x = true)
    (hc : ∀ x ∈ c, isSpaceChar x = true)
    (hd : ∀ x ∈ d, isSpaceChar x = true)
    (he : ∀ x ∈ e, isSpaceChar x = true)
    (htxt : ∀ x ∈ txt, (x == '"') = false) :
    parseEventLine (a ++ (D ++ (b ++ ('=' :: (c ++ ('E' ::
        (d ++ ('"' :: (txt ++ ('"' :: e)))))))))) =
      some (digitsToNat D, String.mk txt) := by
  have hDns : ∀ x ∈ D, isSpaceChar x = false :=
    fun x hx => digit_not_space x (hDdig x hx)
  have hDne : D.isEmpty = false := by
    cases D with
    | nil => exact absurd rfl hD
    | cons x xs => rfl
  have htxt2 : ∀ x ∈ txt, (fun ch => !(ch == '"')) x = true := by
    intro x hx
    simp [htxt x hx]
  have e1 : List.dropWhile isSpaceChar (a ++ (D ++ (b ++ ('=' :: (c ++ ('E' ::
        (d ++ ('"' :: (txt ++ ('"' :: e)))))))))) =
      D ++ (b ++ ('=' :: (c ++ ('E' :: (d ++ ('"' :: (txt ++ ('"' :: e)))))))) :=
    dropWhile_append_of ha (headFails_append_left hD hDns)
  have e2 : List.takeWhile isDigitChar (D ++ (b ++ ('=' :: (c ++ ('E' ::
        (d ++ ('"' :: (txt ++ ('"' :: e))))))))) = D :=
    takeWhile_append_of hDdig (headFails_ws_then hb space_not_digit rfl)
  have e3 : List.dropWhile isDigitChar (D ++ (b ++ ('=' :: (c ++ ('E' ::
        (d ++ ('"' :: (txt ++ ('"' :: e))))))))) =
      b ++ ('=' :: (c ++ ('E' :: (d ++ ('"' :: (txt ++ ('"' :: e))))))) :=
    dropWhile_append_of hDdig (headFails_ws_then hb space_not_digit rfl)
  have e4 : List.dropWhile isSpaceChar (b ++ ('=' :: (c ++ ('E' ::
        (d ++ ('"' :: (txt ++ ('"' :: e)))))))) =
      '=' :: (c ++ ('E' :: (d ++ ('"' :: (txt ++ ('"' :: e)))))) :=
    dropWhile_append_of hb rfl
  have e5 : List.dropWhile isSpaceChar (c ++ ('E' :: (d ++ ('"' ::
        (txt ++ ('"' :: e)))))) = 'E' :: (d ++ ('"' :: (txt ++ ('"' :: e)))) :=
    dropWhile_append_of hc rfl
  have e6 : List.dropWhile isSpaceChar (d ++ ('"' :: (txt ++ ('"' :: e)))) =
      '"' :: (txt ++ ('"' :: e)) :=
    dropWhile_append_of hd rfl
  have e7 : List.takeWhile (fun ch => !(ch == '"')) (txt ++ ('"' :: e)) = txt :=
    takeWhile_append_of htxt2 rfl
  have e8 : List.dropWhile (fun ch => !(ch == '"')) (txt ++ ('"' :: e)) =
      '"' :: e :=
    dropWhile_append_of htxt2 rfl
  have e9 : e.all isSpaceChar = true := List.all_eq_true.mpr he
  simp only [parseEventLine, dropWs, e1, e2, e3, e4, e5, e6, e7, e8, e9,
    hDne, Bool.false_eq_true, if_false, if_true]

/-- Witness for C3_untouched_sections at the concrete scenario input. -/
theorem C3_untouched_sections_witness :
    ∃ (pre : List String) (evs : List ChartEvent) (mid trail : List String),
      collect_chart exampleChart .dummy "ExpertKeyboard" =
        .ok (pre, evs, mid, trail) ∧
      (∃ (hdrE obrE : String) (evBody : List String) (cbrE : String)
         (hdrT obrT : String) (tgtBody : List String) (cbrT : String),
        exampleChart = pre ++ hdrE :: obrE ::
          (evBody ++ cbrE :: (mid ++ hdrT :: obrT ::
            (tgtBody ++ cbrT :: trail))) ∧
        (∀ l ∈ pre, isSectionHeaderLine "Events" l = false) ∧
        isSectionHeaderLine "Events" hdrE = true ∧
        stripStr obrE = "\x7b" ∧
        (∀ l ∈ evBody, (parseEventLine l.data).isSome = true) ∧
        stripStr cbrE = "\x7d" ∧
        (∀ l ∈ mid, isSectionHeaderLine "ExpertKeyboard" l = false) ∧
        isSectionHeaderLine "ExpertKeyboard" hdrT = true ∧
        stripStr obrT = "\x7b" ∧
        (∀ l ∈ tgtBody, (parseLyricNote l.data).isSome = true ∨
          anyNoteLine l.data = true) ∧
        stripStr cbrT = "\x7d") ∧
      ("[Events]\n\x7b\n  100 = E \"test\"\n  200 = E \"phrase_start\"\n  250 = E \"lyric \"\n  300 = E \"phrase_end\"\n\x7d\n" : String) =
        String.join pre ++ eventsBlockStr (sortEvents evs) ++
        String.join mid ++ String.join trail :=
  C3_untouched_sections exampleChart .dummy "ExpertKeyboard" _ rfl

/-- C10: pre-existing Events-section lines are not byte-preserved but
re-serialized canonically: an event line parses to the integer value of
its digit group (leading zeros and inner spacing discarded) and the
quoted text, whatever whitespace padding and zero-prefix the input
carries, and the emitted Events block consists of the exact header
line, a brace line, one line per event of the shape two spaces, the
tick in canonical decimal, the equals-E frame and the quoted text, and
a closing brace line. -/
theorem C10_canonical_events_block (a b c d e : List Char) (k : Nat)
    (ds txt : List Char)
    (ha : ∀ x ∈ a, isSpaceChar x = true) (hb : ∀ x ∈ b, isSpaceChar x = true)
    (hc : ∀ x ∈ c, isSpaceChar x = true) (hd : ∀ x ∈ d, isSpaceChar x = true)
    (he : ∀ x ∈ e, isSpaceChar x = true)
    (hds : ds ≠ []) (hdig : ∀ x ∈ ds, isDigitChar x = true)
    (htxt : ∀ x ∈ txt, (x == '"') = false) :
    parseEventLine (a ++ ((List.replicate k '0' ++ ds) ++ (b ++ ('=' ::
        (c ++ ('E' :: (d ++ ('"' :: (txt ++ ('"' :: e)))))))))) =
      some (digitsToNat ds, String.mk txt) ∧
    ChartEvent.get_code ⟨digitsToNat ds, String.mk txt⟩ =
      "  " ++ Nat.repr (digitsToNat ds) ++ " = E \"" ++ String.mk txt ++ "\"" ∧
    (eventsBlockStr [⟨digitsToNat ds, String.mk txt⟩]).data =
      "[Events]\n\x7b\n  ".data ++ ((Nat.repr (digitsToNat ds)).data ++
        (" = E \"".data ++ (txt ++ "\"\n\x7d\n".data))) := by
  have hDne : List.replicate k '0' ++ ds ≠ [] := by
    intro hcon
    rcases List.append_eq_nil.mp hcon with ⟨h1, h2⟩
    exact hds h2
  have hDdig : ∀ x ∈ List.replicate k '0' ++ ds, isDigitChar x = true := by
    intro x hx
    rcases List.mem_append.mp hx with h1 | h1
    · rw [List.eq_of_mem_replicate h1]; rfl
    · exact hdig x h1
  refine ⟨?_, rfl, ?_⟩
  · rw [parseEventLine_shape a (List.replicate k '0' ++ ds) b c d e txt
      ha hDne hDdig hb hc hd he htxt]
    rw [digitsToNat_leading_zeros]
  · simp [eventsBlockStr, ChartEvent.get_code, String.join]
    rfl

/-- Witness for C10_canonical_events_block at the concrete padded line
containing leading whitespace, two leading zeros and inner spacing. -/
theorem C10_canonical_events_block_witness :
    parseEventLine " 007= E \"hi\"\n".data = some (7, "hi") ∧
    ChartEvent.get_code ⟨7, "hi"⟩ = "  7 = E \"hi\"" ∧
    (eventsBlockStr [⟨7, "hi"⟩]).data = "[Events]\n\x7b\n  7 = E \"hi\"\n\x7d\n".data := by
  have h := C10_canonical_events_block [' '] [] [' '] [' '] ['\n'] 2 ['7'] "hi".data
    (by decide) (by decide) (by decide) (by decide) (by decide)
    (by decide) (by decide) (by decide)
  exact ⟨h.1, h.2.1, h.2.2⟩
